import Mathlib

set_option maxHeartbeats 1000000
set_option maxRecDepth 8192

/-!
Verification of the Relevantr scientific PDF RAG application
(relevantr.py) against its natural-language specification.

The Python source is shallowly embedded: external effects (the PDF
loader, the embedding / similarity-search service, the hosted LLM, the
file system and the vector store) are passed in as explicit
environments, and the orchestration logic of the application is
translated into pure Lean functions over them.
-/

namespace Relevantr

/-! ## Embedded definitions -/

/-- The single-quote character, used in Python-style error messages
without writing a quote character in a Lean string literal. -/
def sq : String := String.singleton (Char.ofNat 39)

/-- A Python metadata value: document metadata dictionaries hold strings
(such as the source filename) and integers (such as page numbers). -/
inductive MVal where
  | str (s : String)
  | int (n : Int)
deriving DecidableEq, Repr

/-- Rendering of a metadata value into text, as Python f-strings do. -/
def mvalStr : MVal → String
  | .str s => s
  | .int n => toString n

/-- A metadata dictionary, embedded as an association list. -/
abbrev Metadata := List (String × MVal)

/-- Dictionary read: Python dict.get with no default, first matching key. -/
def metaGet (m : Metadata) (k : String) : Option MVal :=
  match m with
  | [] => none
  | (k₂, v) :: rest => if k₂ = k then some v else metaGet rest k

/-- Dictionary read with default: Python dict.get(k, d). -/
def metaGetD (m : Metadata) (k : String) (d : MVal) : MVal :=
  (metaGet m k).getD d

/-- Replace the value at every occurrence of an existing key. -/
def replaceKey : Metadata → String → MVal → Metadata
  | [], _, _ => []
  | (k₂, w) :: rest, k, v =>
    if k₂ = k then (k, v) :: replaceKey rest k v
    else (k₂, w) :: replaceKey rest k v

/-- Dictionary assignment: replace the value at an existing key, or add
the pair at the end (Python dict insertion order). -/
def metaSet (m : Metadata) (k : String) (v : MVal) : Metadata :=
  if m.any (fun p => p.1 = k) then replaceKey m k v
  else m ++ [(k, v)]

/-- A LangChain document: extracted text plus its metadata dictionary. -/
structure Document where
  page_content : String
  metadata : Metadata
deriving DecidableEq, Repr

/-- Outcome of the external PyMuPDFLoader.load_and_split call on one
PDF file: either the list of chunk documents, or an exception message. -/
inductive LoadResult where
  | ok (pages : List Document)
  | fail (msg : String)
deriving DecidableEq, Repr

/-- Whether a load succeeded. -/
def LoadResult.isOk : LoadResult → Bool
  | .ok _ => true
  | .fail _ => false

/-- The metadata rewrite done on each chunk inside the per-file loop:
page.metadata["source"] = pdf_file and then
page.metadata["page_number"] = page.metadata.get("page", "Unknown"). -/
def tagPage (pdf_file : String) (d : Document) : Document :=
  let m₁ := metaSet d.metadata "source" (.str pdf_file)
  { d with metadata := metaSet m₁ "page_number" (metaGetD m₁ "page" (.str "Unknown")) }

/-- The log line written after one PDF file is processed successfully. -/
def fileSuccessLog (pdf_file : String) (n : Nat) : String :=
  "Successfully processed " ++ pdf_file ++ " - " ++ toString n ++ " chunks"

/-- The log line written when processing one PDF file raises. -/
def fileFailLog (pdf_file msg : String) : String :=
  "Failed to process " ++ pdf_file ++ ": " ++ msg

/-- Python repr of a list of strings, as logged for problematic files. -/
def pyStrListRepr (l : List String) : String :=
  "[" ++ String.intercalate ", " (l.map (fun s => sq ++ s ++ sq)) ++ "]"

/-- The aggregate warning logged at the end when some files failed. -/
def aggregateWarning (problematic : List String) : String :=
  "Could not process " ++ toString problematic.length ++ " files: "
    ++ pyStrListRepr problematic

/-- The per-file loop of load_and_process_pdfs: for each file, load and
split it; on success tag every chunk with source and page_number and
append the chunks; on an exception record the file as problematic and
continue with the next file. Returns the accumulated documents, the
problematic file names and the per-file log lines, all in loop order. -/
def processFiles (load : String → LoadResult) :
    List String → List Document × List String × List String
  | [] => ([], [], [])
  | f :: rest =>
    match load f with
    | .ok pages =>
      let tagged := pages.map (tagPage f)
      let (docs, probs, log) := processFiles load rest
      (tagged ++ docs, probs, fileSuccessLog f pages.length :: log)
    | .fail msg =>
      let (docs, probs, log) := processFiles load rest
      (docs, f :: probs, fileFailLog f msg :: log)

/-- Python s.endswith(suf): case-sensitive suffix test, embedded on the
underlying character lists. -/
def strEndsWith (suf s : String) : Bool :=
  suf.data.isSuffixOf s.data

/-- The file-selection filter of load_and_process_pdfs:
pdf_files = [f for f in os.listdir(pdf_directory) if f.endswith(".pdf")]. -/
def selectPdfFiles (entries : List String) : List String :=
  entries.filter (fun f => strEndsWith ".pdf" f)

/-- Result record of a successful load_and_process_pdfs run. -/
structure PdfLoadOut where
  documents : List Document
  problematic_files : List String
  log : List String
deriving DecidableEq, Repr

/-- The exception message raised when the PDF directory does not exist. -/
def dirNotFoundMsg (pdf_directory : String) : String :=
  "PDF directory " ++ sq ++ pdf_directory ++ sq ++ " not found"

/-- The exception message raised when the directory has no .pdf entry. -/
def noPdfFilesMsg (pdf_directory : String) : String :=
  "No PDF files found in " ++ sq ++ pdf_directory ++ sq

/-- DocumentProcessor.load_and_process_pdfs, with the file system passed
in explicitly (whether the directory exists and the entries os.listdir
returns) and the external PDF loader as an oracle. Raising an exception
is embedded as returning Except.error. -/
def load_and_process_pdfs (pdf_directory : String) (dirExists : Bool)
    (entries : List String) (load : String → LoadResult) :
    Except String PdfLoadOut :=
  if !dirExists then
    .error (dirNotFoundMsg pdf_directory)
  else
    let pdf_files := selectPdfFiles entries
    if pdf_files.isEmpty then
      .error (noPdfFilesMsg pdf_directory)
    else
      let (docs, probs, plog) := processFiles load pdf_files
      .ok
        { documents := docs
          problematic_files := probs
          log :=
            ("Found " ++ toString pdf_files.length ++ " PDF files to process")
              :: plog
              ++ ["Total chunks created: " ++ toString docs.length]
              ++ (if probs.isEmpty then [] else [aggregateWarning probs]) }

/-- The state of a DocumentProcessor as far as the vector store is
concerned: the handle self.vector_db (None until created or loaded)
and the contents of the collection persisted at persist_directory.
The external Chroma library is modelled by its documented behavior:
Chroma.from_documents with a persist_directory adds the given documents
to the collection persisted there, and the collection count is the
number of stored documents. -/
structure DocProcState where
  vector_db : Option Unit
  disk : List Document
deriving DecidableEq, Repr

/-- DocumentProcessor.create_vector_database: embed and add the
documents to the persisted collection and point self.vector_db at it,
returning True; an exception from the external embedding call (embedOk
false) is caught, leaves the state unchanged and returns False. -/
def create_vector_database (embedOk : Bool) (st : DocProcState)
    (documents : List Document) : Bool × DocProcState :=
  if embedOk then
    (true, { vector_db := some (), disk := st.disk ++ documents })
  else
    (false, st)

/-- DocumentProcessor.get_database_stats: status string and chunk count. -/
def get_database_stats (st : DocProcState) : String × Nat :=
  match st.vector_db with
  | none => ("not_initialized", 0)
  | some _ => ("ready", st.disk.length)

/-- Outcome of the background ingestion thread of
ScientificRAGApp.process_pdfs. -/
inductive IngestOutcome where
  | completed (success : Bool) (doc_count : Nat)
  | errored (msg : String)
deriving DecidableEq, Repr

/-- The body of the background thread started by
ScientificRAGApp.process_pdfs: load the PDFs; if that raises, report
the error via on_processing_error and leave the vector store untouched;
if no documents were produced, report an error likewise; otherwise call
create_vector_database and report completion. -/
def process_thread (pdf_directory : String) (dirExists : Bool)
    (entries : List String) (load : String → LoadResult) (embedOk : Bool)
    (st : DocProcState) : IngestOutcome × DocProcState :=
  match load_and_process_pdfs pdf_directory dirExists entries load with
  | .error e => (.errored e, st)
  | .ok out =>
    if out.documents.isEmpty then
      (.errored "No documents were processed", st)
    else
      let (success, st₂) := create_vector_database embedOk st out.documents
      (.completed success out.documents.length, st₂)

/-- The message box shown by ScientificRAGApp.on_processing_error. -/
def on_processing_error_box (error_message : String) : String :=
  "Failed to process PDFs:\n" ++ error_message

/-- The display label built for one retrieved chunk inside
QueryProcessor.process_query: the source filename, with the page
appended when the page value is not the string Unknown. -/
def display_source (d : Document) : String :=
  let source_file := mvalStr (metaGetD d.metadata "source" (.str "Unknown Source"))
  let page_num := metaGetD d.metadata "page_number"
    (metaGetD d.metadata "page" (.str "Unknown"))
  if page_num ≠ MVal.str "Unknown" then
    source_file ++ " (Page: " ++ mvalStr page_num ++ ")"
  else
    source_file

/-- One structured-context block for the i-th retrieved chunk
(i counted from zero, displayed from one). -/
def contextItem (i : Nat) (d : Document) : String :=
  "--- START CONTEXT_ITEM_" ++ toString (i + 1) ++ ": Source File: "
    ++ display_source d ++ " ---\n" ++ d.page_content
    ++ "\n--- END CONTEXT_ITEM_" ++ toString (i + 1) ++ " ---"

/-- Adding a label to the set unique_sources: a Python set holds each
distinct element once; the set is embedded as a duplicate-free list in
first-insertion order. -/
def addUnique (acc : List String) (s : String) : List String :=
  if s ∈ acc then acc else acc ++ [s]

/-- The set unique_sources accumulated over the retrieved chunks. -/
def uniqueSources (docs : List Document) : List String :=
  docs.foldl (fun acc d => addUnique acc (display_source d)) []

/-- The joined structured context passed to the LLM. -/
def contextForLLM (docs : List Document) : String :=
  String.intercalate "\n\n" (docs.enum.map (fun p => contextItem p.1 p.2))

/-- Insertion into a sorted list of strings, for Python sorted(...). -/
def insertSorted (s : String) : List String → List String
  | [] => [s]
  | t :: rest => if s ≤ t then s :: t :: rest else t :: insertSorted s rest

/-- Python sorted(...) over strings (lexicographic insertion sort). -/
def sortStrings (l : List String) : List String :=
  l.foldr insertSorted []

/-- The source-reference block appended to the prompt. -/
def sourceListBlock (docs : List Document) : String :=
  "Full Source References:\n"
    ++ String.intercalate "\n" (sortStrings (uniqueSources docs))

/-- QueryProcessor._create_prompt: the prompt template for Gemini. -/
def create_prompt (query context sources : String) : String :=
  "\nYou are an AI assistant specialized in scientific document analysis. Your task is to answer the user"
    ++ sq ++ "s question STRICTLY by referencing the provided document excerpts.\n\n"
    ++ "**CRITICAL INSTRUCTIONS:**\n"
    ++ "1. For EVERY piece of information you provide, you MUST identify its source\n"
    ++ "2. Format your answer with explicit source attribution\n"
    ++ "3. Include direct quotes or very close paraphrases from the source material\n"
    ++ "4. If information is not present in the provided context, clearly state that\n\n"
    ++ "**Desired Format:**\n"
    ++ "Start with a brief overview, then for each specific point:\n"
    ++ "- State the source: \"According to [filename] (Page: X)...\"\n"
    ++ "- Include the relevant information: \"The document states: "
    ++ sq ++ "[quote or paraphrase]" ++ sq ++ "\"\n"
    ++ "- Continue with additional sources as needed\n\n"
    ++ "**Context Information:**\n" ++ context ++ "\n\n---\n"
    ++ "**User Question:** " ++ query
    ++ "\n\nPlease provide a comprehensive, well-attributed answer based ONLY on the provided context.\n\n"
    ++ sources ++ "\n"

/-- A network request issued while answering a query: the vector-store
similarity search (which embeds the query remotely) or the generation
call to the hosted LLM. -/
inductive NetCall where
  | search (query : String) (k : Nat)
  | generate (prompt : String)
deriving DecidableEq, Repr

/-- The environment of a query: the external similarity search and the
external LLM, each of which may raise. -/
structure QueryEnv where
  similarity_search : String → Nat → Except String (List Document)
  llm_invoke : String → Except String String

/-- The dictionary returned by QueryProcessor.process_query: the success
shape carries the answer, the deduplicated source labels, the retrieved
chunks, the context and num_sources; the failure shape carries the error
string and the apology answer. -/
inductive QueryOutcome where
  | ok (answer : String) (sources : List String)
      (retrieved_docs : List Document) (context : String) (num_sources : Nat)
  | err (errorMsg : String) (answer : String)
deriving DecidableEq, Repr

/-- The apology answer returned on failure. -/
def apologyAnswer : String :=
  "Sorry, I couldn" ++ sq ++ "t process your query at this time."

/-- QueryProcessor.process_query: similarity-search the vector store,
assemble the structured context and the deduplicated source labels,
prompt the LLM, and return the result dictionary. Alongside the outcome
the list of network calls issued is returned, in order. Any exception
from an external call is caught and turned into the failure shape. -/
def QueryProcessor.process_query (max_retrieved_docs : Nat) (env : QueryEnv)
    (query : String) : QueryOutcome × List NetCall :=
  match env.similarity_search query max_retrieved_docs with
  | .error e => (.err e apologyAnswer, [.search query max_retrieved_docs])
  | .ok retrieved_docs =>
    let context := contextForLLM retrieved_docs
    let prompt := create_prompt query context (sourceListBlock retrieved_docs)
    match env.llm_invoke prompt with
    | .error e =>
      (.err e apologyAnswer, [.search query max_retrieved_docs, .generate prompt])
    | .ok answer =>
      (.ok answer (uniqueSources retrieved_docs) retrieved_docs context
        retrieved_docs.length,
        [.search query max_retrieved_docs, .generate prompt])

/-- What ScientificRAGApp.process_query does before any thread starts:
an empty (stripped) query is rejected with a warning box, a missing
vector_db handle is rejected with an error box; only otherwise is the
query thread started. -/
inductive GuiQueryOutcome where
  | warnedEmptyQuery
  | errorDbNotReady
  | answered (r : QueryOutcome)
deriving DecidableEq, Repr

/-- Whitespace for Python str.strip(). -/
def isSpaceChar (c : Char) : Bool :=
  c = ' ' || c = '\t' || c = '\n' || c = '\r'

/-- Python s.strip(): remove leading and trailing whitespace, embedded
on the underlying character lists. -/
def strStrip (s : String) : String :=
  String.mk (((s.data.dropWhile isSpaceChar).reverse.dropWhile
    isSpaceChar).reverse)

/-- ScientificRAGApp.process_query composed with the query thread body,
returning the outcome and every network call issued for this query. The
guard checks only whether self.processor.vector_db is set; it does not
look at the number of stored chunks. -/
def gui_process_query (max_retrieved_docs : Nat) (env : QueryEnv)
    (query_raw : String) (st : DocProcState) :
    GuiQueryOutcome × List NetCall :=
  let query := strStrip query_raw
  if query = "" then (.warnedEmptyQuery, [])
  else
    match st.vector_db with
    | none => (.errorDbNotReady, [])
    | some _ =>
      let (r, calls) := QueryProcessor.process_query max_retrieved_docs env query
      (.answered r, calls)

/-- Substring containment (the Python in operator on strings), on the
underlying character lists. -/
def hasSubList (pat : List Char) : List Char → Bool
  | [] => pat.isEmpty
  | c :: rest => pat.isPrefixOf (c :: rest) || hasSubList pat rest

/-- Python: pat in s. -/
def strContains (pat s : String) : Bool :=
  hasSubList pat.toList s.toList

/-- Outcome of invoking a candidate chat model once with Hello. -/
inductive InvokeOutcome where
  | ok (response : String)
  | exc (msg : String)
deriving DecidableEq, Repr

/-- Whether an invocation succeeded. -/
def InvokeOutcome.isOk : InvokeOutcome → Bool
  | .ok _ => true
  | .exc _ => false

/-- The fixed fallback list of initialize_llm, in preference order. -/
def model_preference : List (String × String) :=
  [("gemini-1.5-pro", "Premium model (paid tier)"),
   ("gemini-1.5-flash", "Fast model (free tier)"),
   ("gemini-pro", "Legacy model (deprecated)")]

/-- The coarse classification of a failed attempt into a log line:
quota vs. permission/not-found vs. other, computed from the lowercased
exception text. It is used only to choose the logged text. -/
def classifyFailureLog (model_name msg : String) : String :=
  let error_msg := msg.toLower
  if strContains "quota exceeded" error_msg then
    "❌ " ++ model_name ++ " quota exceeded - trying next model"
  else if strContains "permission denied" error_msg
      || strContains "not found" error_msg then
    "❌ " ++ model_name ++ " not available (likely requires paid tier)"
  else
    "❌ " ++ model_name ++ " failed: " ++ msg

/-- The log line written when a candidate model works. -/
def successLog (model_name description : String) : String :=
  if strContains "pro" model_name && !(strContains "flash" model_name) then
    "✅ SUCCESS: Using premium model " ++ model_name ++ " - You have Pro access!"
  else
    "✅ SUCCESS: Using " ++ model_name ++ " - " ++ description

/-- Result of initialize_llm: whether it returned True, the value of
config.generation_model afterwards, which model the stored self.llm
client talks to (None when initialization failed), the models invoked
in order, and the log. -/
structure LLMInitResult where
  success : Bool
  generation_model : String
  llm_model : Option String
  attempts : List String
  log : List String
deriving DecidableEq, Repr

/-- The for-loop of initialize_llm over the remaining preference list. -/
def init_llm_loop (env : String → InvokeOutcome) (gm₀ : String) :
    List (String × String) → List String → List String → LLMInitResult
  | [], attempts, log =>
    { success := false
      generation_model := gm₀
      llm_model := none
      attempts := attempts
      log := log ++
        ["❌ No working models found. Check your API key and internet connection."] }
  | (model_name, description) :: rest, attempts, log =>
    let log := log ++ ["Testing " ++ model_name ++ " - " ++ description]
    match env model_name with
    | .ok _ =>
      { success := true
        generation_model := model_name
        llm_model := some model_name
        attempts := attempts ++ [model_name]
        log := log ++ [successLog model_name description] }
    | .exc msg =>
      init_llm_loop env gm₀ rest (attempts ++ [model_name])
        (log ++ [classifyFailureLog model_name msg])

/-- QueryProcessor.initialize_llm: walk model_preference in order, keep
the first model whose test invocation succeeds (recording it in
config.generation_model), fail when the list is exhausted. The network
is passed in as an oracle from model name to invocation outcome. -/
def initialize_llm (env : String → InvokeOutcome) (generation_model₀ : String) :
    LLMInitResult :=
  init_llm_loop env generation_model₀ model_preference [] ["Testing available models..."]

/-- The fixed alternative list of initialize_embeddings. -/
def alternative_models : List String :=
  ["models/embedding-001", "models/text-embedding-004"]

/-- Result of initialize_embeddings: whether it returned True, the value
of config.embedding_model afterwards, and the models actually attempted
(test-embedded) in order. -/
structure EmbInitResult where
  success : Bool
  embedding_model : String
  attempts : List String
deriving DecidableEq, Repr

/-- The for-loop of initialize_embeddings over the alternative models:
a model equal to the configured one is skipped, any other is attempted
once; the first success is recorded in config.embedding_model. -/
def init_emb_loop (env : String → Bool) (cfg : String) :
    List String → List String → EmbInitResult
  | [], attempts =>
    { success := false, embedding_model := cfg, attempts := attempts }
  | alt_model :: rest, attempts =>
    if alt_model = cfg then init_emb_loop env cfg rest attempts
    else if env alt_model then
      { success := true, embedding_model := alt_model
        attempts := attempts ++ [alt_model] }
    else
      init_emb_loop env cfg rest (attempts ++ [alt_model])

/-- DocumentProcessor.initialize_embeddings: attempt the configured
embedding model first; on an exception, fall back over the alternative
list, skipping the configured model. The network is an oracle from model
name to whether the test embed_query call succeeds. -/
def initialize_embeddings (env : String → Bool) (embedding_model₀ : String) :
    EmbInitResult :=
  if env embedding_model₀ then
    { success := true, embedding_model := embedding_model₀
      attempts := [embedding_model₀] }
  else
    init_emb_loop env embedding_model₀ alternative_models [embedding_model₀]

/-- The GUI-thread state of ScientificRAGApp, plus ghost thread counts. -/
structure AppState where
  is_processing : Bool
  process_btn_enabled : Bool
  ask_btn_enabled : Bool
  has_db : Bool
  api_key_set : Bool
  ingest_running : Nat
  query_running : Nat
deriving DecidableEq, Repr

/-- GUI events: the user clicks Process PDFs (with a non-empty or empty
directory entry), a finishing ingestion thread posts
on_processing_complete or on_processing_error, the user clicks Ask
Question (with a non-empty or empty query text), and a finishing query
thread posts display_results. -/
inductive GuiEvent where
  | clickProcess (dir_nonempty : Bool)
  | ingestDone (success : Bool)
  | ingestError
  | clickAsk (query_nonempty : Bool)
  | queryDone
deriving DecidableEq, Repr

/-- One GUI callback. clickProcess follows process_pdfs: return early
when is_processing is set, the API key is missing or the directory entry
is empty, else set the busy flag, disable the Process button and start
an ingestion thread. ingestDone follows on_processing_complete: clear
the busy flag, re-enable the Process button, and on success mark the
database ready and force-enable the query interface. ingestError follows
on_processing_error. clickAsk follows process_query: it can only fire
while the Ask button is enabled (Tk does not deliver clicks to a
disabled button); it warns on an empty query, errors when vector_db is
unset, and otherwise disables the Ask button and starts a query thread —
it neither checks nor sets is_processing. queryDone follows
display_results: re-enable the Ask button. -/
def guiStep (st : AppState) : GuiEvent → AppState
  | .clickProcess dir_nonempty =>
    if st.is_processing then st
    else if !st.api_key_set then st
    else if !dir_nonempty then st
    else { st with is_processing := true, process_btn_enabled := false,
                   ingest_running := st.ingest_running + 1 }
  | .ingestDone success =>
    if st.ingest_running = 0 then st
    else
      let st₂ := { st with is_processing := false, process_btn_enabled := true,
                           ingest_running := st.ingest_running - 1 }
      if success then { st₂ with has_db := true, ask_btn_enabled := true }
      else st₂
  | .ingestError =>
    if st.ingest_running = 0 then st
    else { st with is_processing := false, process_btn_enabled := true,
                   ingest_running := st.ingest_running - 1 }
  | .clickAsk query_nonempty =>
    if !st.ask_btn_enabled then st
    else if !query_nonempty then st
    else if !st.has_db then st
    else { st with ask_btn_enabled := false,
                   query_running := st.query_running + 1 }
  | .queryDone =>
    if st.query_running = 0 then st
    else { st with ask_btn_enabled := true,
                   query_running := st.query_running - 1 }

/-- The state after a successful set_api_key that loaded an existing
database: API connected, query interface enabled, nothing in flight. -/
def initAppState : AppState :=
  { is_processing := false
    process_btn_enabled := true
    ask_btn_enabled := true
    has_db := true
    api_key_set := true
    ingest_running := 0
    query_running := 0 }

/-- Run a sequence of GUI events. -/
def runGui (st : AppState) (evs : List GuiEvent) : AppState :=
  evs.foldl guiStep st

/-- The separator " (Page: " as a character list. -/
def pageSep : List Char := " (Page: ".data

/-- The separator without its leading space, "(Page: ". -/
def pageSepTail : List Char := "(Page: ".data

/-- Python s.rsplit(sep, 1): split at the last occurrence of sep,
returning the parts before and after it, or None when sep does not
occur. Occurrences later in the list win. -/
def rsplitOnce (sep : List Char) : List Char → Option (List Char × List Char)
  | [] => none
  | c :: rest =>
    match rsplitOnce sep rest with
    | some (pre, post) => some (c :: pre, post)
    | none =>
      if sep.isPrefixOf (c :: rest) then some ([], (c :: rest).drop sep.length)
      else none

/-- Python s.rstrip(")"): remove every trailing close-paren. -/
def rstripParen (l : List Char) : List Char :=
  (l.reverse.dropWhile (fun c => c = ')')).reverse

/-- The per-item parsing of ScientificRAGApp.display_sources: when the
label contains " (Page: ", split at its last occurrence and strip
trailing close-parens from the page part; otherwise the whole label is
the filename and the page is Unknown. (rsplitOnce returns some exactly
when the separator occurs in the label, mirroring the Python
containment test guarding the rsplit.) -/
def parseSourceLabel (source : String) : String × String :=
  match rsplitOnce pageSep source.data with
  | some (filename, page_part) =>
    (String.mk filename, String.mk (rstripParen page_part))
  | none => (source, "Unknown")

/-- The label produced by QueryProcessor.process_query for a chunk with
a known page: filename ++ " (Page: " ++ page ++ ")". -/
def formatLabel (filename page : String) : String :=
  filename ++ " (Page: " ++ page ++ ")"

/-- The model names of the preference list. -/
def namesOf (l : List (String × String)) : List String :=
  l.map (fun p => p.1)

/-- The busy-flag invariant: the number of in-flight ingestion threads
is one exactly while is_processing is set, and zero otherwise. -/
def busyInv (st : AppState) : Prop :=
  st.ingest_running = (if st.is_processing then 1 else 0)

/-- A network where the premium model raises a quota error and every
other model answers. -/
def envQuota : String → InvokeOutcome := fun n =>
  if n = "gemini-1.5-pro" then .exc "429 Quota exceeded for quota metric"
  else .ok "Hello!"

/-- The same availability pattern, but with a permission-style error. -/
def envPerm : String → InvokeOutcome := fun n =>
  if n = "gemini-1.5-pro" then .exc "403 permission denied for model"
  else .ok "Hi."

/-- A chunk of a.pdf with a known page. -/
def docA : Document :=
  { page_content := "alpha"
    metadata := [("source", .str "a.pdf"), ("page_number", .int 2)] }

/-- A second chunk of a.pdf with the same page: same source label. -/
def docA2 : Document :=
  { page_content := "beta"
    metadata := [("source", .str "a.pdf"), ("page_number", .int 2)] }

/-- A chunk of b.pdf whose page is unknown. -/
def docB : Document :=
  { page_content := "gamma"
    metadata := [("source", .str "b.pdf"), ("page_number", .str "Unknown")] }

/-- A query environment whose search returns three chunks (two sharing a
label) and whose LLM answers. -/
def envQueryDemo : QueryEnv :=
  { similarity_search := fun _ _ => .ok [docA, docA2, docB]
    llm_invoke := fun _ => .ok "ANSWER" }

/-- A PDF loader where b.pdf raises and the other files yield chunks. -/
def loadDemo : String → LoadResult := fun f =>
  if f = "b.pdf" then .fail "broken xref"
  else .ok [{ page_content := "text of " ++ f, metadata := [("page", .int 0)] }]

/-- The output of the C6 witness run: one chunk of a.pdf tagged with its
source and page number, the text entry ignored. -/
def outDemoDoc : Document :=
  { page_content := "text of a.pdf"
    metadata := [("page", .int 0), ("source", .str "a.pdf"),
      ("page_number", .int 0)] }

/-- The full C6 witness output record. -/
def outDemo : PdfLoadOut :=
  { documents := [outDemoDoc]
    problematic_files := []
    log := ["Found 1 PDF files to process",
      "Successfully processed a.pdf - 1 chunks",
      "Total chunks created: 1"] }

/-- The C4 witness output: one good file, one failing file, one ignored
text entry. -/
def outDemo2 : PdfLoadOut :=
  { documents := [outDemoDoc]
    problematic_files := ["b.pdf"]
    log := ["Found 2 PDF files to process",
      "Successfully processed a.pdf - 1 chunks",
      "Failed to process b.pdf: broken xref",
      "Total chunks created: 1",
      aggregateWarning ["b.pdf"]] }

/-! ## Theorems -/

theorem metaGet_replaceKey_of_any (m : Metadata) (k : String) (v : MVal)
    (h : m.any (fun p => p.1 = k) = true) :
    metaGet (replaceKey m k v) k = some v := by
  induction m with
  | nil => simp at h
  | cons p rest ih =>
    obtain ⟨k₂, w⟩ := p
    by_cases hp : k₂ = k
    · simp [replaceKey, metaGet, hp]
    · simp only [List.any_cons, Bool.or_eq_true, decide_eq_true_eq] at h
      rcases h with h | h
      · exact absurd h hp
      · simpa [replaceKey, metaGet, hp] using ih (by simpa using h)

theorem metaGet_replaceKey_other (m : Metadata) (k k₂ : String) (v : MVal)
    (hk : k₂ ≠ k) :
    metaGet (replaceKey m k v) k₂ = metaGet m k₂ := by
  induction m with
  | nil => simp [replaceKey]
  | cons p rest ih =>
    obtain ⟨k₃, w⟩ := p
    by_cases hp : k₃ = k
    · have hkk : ¬ k = k₂ := fun hh => hk hh.symm
      have hpk : ¬ k₃ = k₂ := by rw [hp]; exact hkk
      simpa [replaceKey, metaGet, hp, hkk, hpk] using ih
    · by_cases hpk : k₃ = k₂
      · simp [replaceKey, metaGet, hp, hpk, hk]
      · simpa [replaceKey, metaGet, hp, hpk] using ih

theorem metaGet_eq_none_of_not_any (m : Metadata) (k : String)
    (h : m.any (fun p => p.1 = k) = false) : metaGet m k = none := by
  induction m with
  | nil => rfl
  | cons p rest ih =>
    obtain ⟨k₃, w⟩ := p
    simp only [List.any_cons, Bool.or_eq_false_iff, decide_eq_false_iff_not] at h
    simpa [metaGet, h.1] using ih (by simpa using h.2)

theorem metaGet_append_of_none (m m₂ : Metadata) (k : String)
    (h : metaGet m k = none) : metaGet (m ++ m₂) k = metaGet m₂ k := by
  induction m with
  | nil => rfl
  | cons p rest ih =>
    obtain ⟨k₃, w⟩ := p
    by_cases hp : k₃ = k
    · simp [metaGet, hp] at h
    · simp only [metaGet, if_neg hp] at h
      simpa [metaGet, hp] using ih h

theorem metaGet_append_single_other (m : Metadata) (k k₂ : String) (v : MVal)
    (hk : k₂ ≠ k) :
    metaGet (m ++ [(k, v)]) k₂ = metaGet m k₂ := by
  induction m with
  | nil =>
    have hkk : ¬ k = k₂ := fun hh => hk hh.symm
    simp [metaGet, hkk]
  | cons p rest ih =>
    obtain ⟨k₃, w⟩ := p
    by_cases hpk : k₃ = k₂
    · simp [metaGet, hpk]
    · simpa [metaGet, hpk] using ih

theorem metaGet_metaSet_same (m : Metadata) (k : String) (v : MVal) :
    metaGet (metaSet m k v) k = some v := by
  unfold metaSet
  by_cases h : m.any (fun p => p.1 = k)
  · simpa [h] using metaGet_replaceKey_of_any m k v h
  · simp only [Bool.not_eq_true] at h
    rw [if_neg (by simp [h]),
      metaGet_append_of_none m _ k (metaGet_eq_none_of_not_any m k h)]
    simp [metaGet]

theorem metaGet_metaSet_other (m : Metadata) (k k₂ : String) (v : MVal)
    (hk : k₂ ≠ k) :
    metaGet (metaSet m k v) k₂ = metaGet m k₂ := by
  unfold metaSet
  by_cases h : m.any (fun p => p.1 = k)
  · simpa [h] using metaGet_replaceKey_other m k k₂ v hk
  · simp only [Bool.not_eq_true] at h
    rw [if_neg (by simp [h])]
    exact metaGet_append_single_other m k k₂ v hk

/-- Python pre in s for the list level: containment as an infix. -/
theorem hasSubList_of_decomp (sep u v l : List Char)
    (h : l = u ++ sep ++ v) : hasSubList sep l = true := by
  induction u generalizing l with
  | nil =>
    subst h
    cases hsep : sep with
    | nil =>
      cases v with
      | nil => simp [hasSubList]
      | cons c rest => simp [hasSubList]
    | cons s srest =>
      have hpre : (s :: srest).isPrefixOf (s :: (srest ++ v)) = true := by
        rw [List.isPrefixOf_iff_prefix]
        exact ⟨v, by simp⟩
      simp only [List.cons_append, hasSubList, List.append_eq]
      simp [hpre]
  | cons c u' ih =>
    subst h
    simp only [List.cons_append, hasSubList, List.append_eq]
    rw [ih (u' ++ sep ++ v) rfl]
    simp

/-- If sep occurs nowhere in l, rsplitOnce finds nothing. -/
theorem rsplitOnce_eq_none (sep l : List Char)
    (h : ∀ u v, l ≠ u ++ sep ++ v) : rsplitOnce sep l = none := by
  induction l with
  | nil => rfl
  | cons c rest ih =>
    have hrest : ∀ u v, rest ≠ u ++ sep ++ v := by
      intro u v huv
      exact h (c :: u) v (by simp [huv])
    simp only [rsplitOnce, ih hrest]
    have : ¬ sep.isPrefixOf (c :: rest) = true := by
      intro hpre
      rw [List.isPrefixOf_iff_prefix] at hpre
      obtain ⟨t, ht⟩ := hpre
      exact h [] t (by simp [ht.symm])
    simp [this]

/-- rsplitOnce at the last occurrence: when sep occurs nowhere strictly
after the start of the sep ++ t tail, splitting f ++ sep ++ t recovers
f and t. -/
theorem rsplitOnce_append (sep f t : List Char) (hsep : sep ≠ [])
    (h : ∀ u v, u ≠ [] → sep ++ t ≠ u ++ sep ++ v) :
    rsplitOnce sep (f ++ sep ++ t) = some (f, t) := by
  induction f with
  | nil =>
    obtain ⟨s, srest, rfl⟩ : ∃ s srest, sep = s :: srest := by
      cases sep with
      | nil => exact absurd rfl hsep
      | cons s srest => exact ⟨s, srest, rfl⟩
    have hnone : rsplitOnce (s :: srest) (srest ++ t) = none := by
      apply rsplitOnce_eq_none
      intro u v huv
      exact h (s :: u) v (by simp) (by simp [huv])
    have hpre : (s :: srest).isPrefixOf (s :: (srest ++ t)) = true := by
      rw [List.isPrefixOf_iff_prefix]
      exact ⟨t, by simp⟩
    show rsplitOnce (s :: srest) (s :: (srest ++ t)) = some ([], t)
    simp only [rsplitOnce, hnone, hpre, if_true]
    simp [List.drop_left]
  | cons c f' ih =>
    show rsplitOnce sep (c :: (f' ++ sep ++ t)) = some (c :: f', t)
    simp only [rsplitOnce, ih]

theorem getLast?_append_singleton {α : Type} (l : List α) (a : α) :
    (l ++ [a]).getLast? = some a :=
  List.getLast?_concat l

theorem append_singleton_inj {l₁ l₂ : List Char} {a b : Char}
    (h : l₁ ++ [a] = l₂ ++ [b]) : l₁ = l₂ ∧ a = b := by
  have hab : a = b := by
    have h₁ := getLast?_append_singleton l₁ a
    rw [h, getLast?_append_singleton] at h₁
    exact (Option.some.inj h₁).symm
  subst hab
  exact ⟨(List.append_left_inj [a]).mp h, rfl⟩

/-- The separator cannot occur inside page ++ ")" when the page text
does not contain it and does not end with a close-paren: the separator
ends in a space, and any occurrence avoiding the final close-paren would
lie inside the page. -/
theorem pageSepTail_block (B u v : List Char)
    (h1 : ∀ x y, B ≠ x ++ pageSep ++ y)
    (heq : B ++ [')'] = u ++ pageSep ++ v) : False := by
  rcases List.eq_nil_or_concat v with rfl | ⟨v', x, rfl⟩
  · have hsep : pageSep = " (Page:".data ++ [' '] := by decide
    rw [List.append_nil, hsep, ← List.append_assoc] at heq
    obtain ⟨-, hx⟩ := append_singleton_inj heq
    exact absurd hx (by decide)
  · rw [List.concat_eq_append, ← List.append_assoc] at heq
    obtain ⟨hB, -⟩ := append_singleton_inj heq
    exact h1 u v' hB

/-- page ++ ")" cannot itself start with "(Page: " when the page text
does not start with it and does not end with a close-paren. -/
theorem pageSepTail_not_start (B v : List Char)
    (h2 : ∀ y, B ≠ pageSepTail ++ y)
    (heq : B ++ [')'] = pageSepTail ++ v) : False := by
  rcases List.eq_nil_or_concat v with rfl | ⟨v', x, rfl⟩
  · rw [List.append_nil] at heq
    have h₁ := getLast?_append_singleton B ')'
    rw [heq] at h₁
    exact absurd h₁ (by decide)
  · rw [List.concat_eq_append, ← List.append_assoc] at heq
    obtain ⟨hB, -⟩ := append_singleton_inj heq
    exact h2 v' hB

/-- No occurrence of the separator starts inside
"(Page: " ++ page ++ ")" under the side conditions on the page. -/
theorem no_late_sep_in_label (B u v : List Char)
    (h1 : ∀ x y, B ≠ x ++ pageSep ++ y)
    (h2 : ∀ y, B ≠ pageSepTail ++ y)
    (heq : pageSepTail ++ (B ++ [')']) = u ++ pageSep ++ v) : False := by
  have hS : pageSep = ' ' :: pageSepTail := by decide
  have hA : pageSepTail = '(' :: 'P' :: 'a' :: 'g' :: 'e' :: ':' :: ' ' :: [] := by
    decide
  rw [hA] at heq
  simp only [List.cons_append, List.nil_append] at heq
  rcases u with _ | ⟨c1, u⟩
  · rw [List.nil_append, hS, List.cons_append] at heq
    exact absurd (List.cons.inj heq).1 (by decide)
  simp only [List.cons_append] at heq
  obtain ⟨-, heq⟩ := List.cons.inj heq
  rcases u with _ | ⟨c2, u⟩
  · rw [List.nil_append, hS, List.cons_append] at heq
    exact absurd (List.cons.inj heq).1 (by decide)
  simp only [List.cons_append] at heq
  obtain ⟨-, heq⟩ := List.cons.inj heq
  rcases u with _ | ⟨c3, u⟩
  · rw [List.nil_append, hS, List.cons_append] at heq
    exact absurd (List.cons.inj heq).1 (by decide)
  simp only [List.cons_append] at heq
  obtain ⟨-, heq⟩ := List.cons.inj heq
  rcases u with _ | ⟨c4, u⟩
  · rw [List.nil_append, hS, List.cons_append] at heq
    exact absurd (List.cons.inj heq).1 (by decide)
  simp only [List.cons_append] at heq
  obtain ⟨-, heq⟩ := List.cons.inj heq
  rcases u with _ | ⟨c5, u⟩
  · rw [List.nil_append, hS, List.cons_append] at heq
    exact absurd (List.cons.inj heq).1 (by decide)
  simp only [List.cons_append] at heq
  obtain ⟨-, heq⟩ := List.cons.inj heq
  rcases u with _ | ⟨c6, u⟩
  · rw [List.nil_append, hS, List.cons_append] at heq
    exact absurd (List.cons.inj heq).1 (by decide)
  simp only [List.cons_append] at heq
  obtain ⟨-, heq⟩ := List.cons.inj heq
  rcases u with _ | ⟨c7, u⟩
  · rw [List.nil_append, hS, List.cons_append] at heq
    obtain ⟨-, heq⟩ := List.cons.inj heq
    exact pageSepTail_not_start B v h2 heq
  simp only [List.cons_append] at heq
  obtain ⟨-, heq⟩ := List.cons.inj heq
  exact pageSepTail_block B u v h1 heq

/-- The occurrence of the separator inserted by process_query is the
last one in the label. -/
theorem label_no_second_sep (B u v : List Char)
    (h1 : ∀ x y, B ≠ x ++ pageSep ++ y)
    (h2 : ∀ y, B ≠ pageSepTail ++ y)
    (hu : u ≠ [])
    (heq : pageSep ++ (B ++ [')']) = u ++ pageSep ++ v) : False := by
  have hS : pageSep = ' ' :: pageSepTail := by decide
  rcases u with _ | ⟨c, u⟩
  · exact hu rfl
  · rw [hS] at heq
    simp only [List.cons_append] at heq
    obtain ⟨-, heq⟩ := List.cons.inj heq
    rw [← hS] at heq
    exact no_late_sep_in_label B u v h1 h2 heq

theorem mk_data_eq (s : String) : String.mk s.data = s := by
  obtain ⟨l⟩ := s
  rfl

theorem formatLabel_data (f p : String) :
    (formatLabel f p).data = f.data ++ (pageSep ++ (p.data ++ [')'])) := by
  simp [formatLabel, pageSep, String.data_append]

theorem rstripParen_append_paren (l : List Char) (h : l.getLast? ≠ some ')') :
    rstripParen (l ++ [')']) = l := by
  unfold rstripParen
  rw [List.reverse_append]
  simp only [List.reverse_cons, List.reverse_nil, List.nil_append,
    List.singleton_append]
  rw [List.dropWhile_cons_of_pos (by decide)]
  have hdw : l.reverse.dropWhile (fun c => decide (c = ')')) = l.reverse := by
    cases hrev : l.reverse with
    | nil => rfl
    | cons a t =>
      have ha : ¬ a = ')' := by
        intro hcon
        apply h
        rw [← List.head?_reverse, hrev, hcon]
        rfl
      rw [List.dropWhile_cons_of_neg (by simpa using ha)]
  rw [hdw, List.reverse_reverse]

/-- Round-trip of the label format of process_query through the label
parsing of display_sources, under the side conditions on the page text:
it must not contain the separator, not start with the separator minus
its leading space, and not end with a close-paren. -/
theorem parse_formatLabel (f p : String)
    (hp1 : hasSubList pageSep p.data = false)
    (hp2 : pageSepTail.isPrefixOf p.data = false)
    (hp3 : p.data.getLast? ≠ some ')') :
    parseSourceLabel (formatLabel f p) = (f, p) := by
  have h1 : ∀ x y, p.data ≠ x ++ pageSep ++ y := by
    intro x y hxy
    rw [hasSubList_of_decomp pageSep x y p.data hxy] at hp1
    exact Bool.noConfusion hp1
  have h2 : ∀ y, p.data ≠ pageSepTail ++ y := by
    intro y hy
    have hpre : pageSepTail <+: p.data := ⟨y, hy.symm⟩
    rw [← List.isPrefixOf_iff_prefix] at hpre
    rw [hpre] at hp2
    exact Bool.noConfusion hp2
  have hsplit : rsplitOnce pageSep (formatLabel f p).data
      = some (f.data, p.data ++ [')']) := by
    rw [formatLabel_data, ← List.append_assoc]
    exact rsplitOnce_append pageSep f.data (p.data ++ [')']) (by decide)
      (fun u v hu heq => label_no_second_sep p.data u v h1 h2 hu heq)
  unfold parseSourceLabel
  rw [hsplit]
  show (String.mk f.data, String.mk (rstripParen (p.data ++ [')']))) = (f, p)
  rw [rstripParen_append_paren p.data hp3, mk_data_eq, mk_data_eq]

/-- The label process_query builds for a chunk with a known page
matches the format parsed by display_sources. -/
theorem display_source_formatLabel (content f p : String) (hp : p ≠ "Unknown") :
    display_source ⟨content, [("source", .str f), ("page_number", .str p)]⟩
      = formatLabel f p := by
  simp [display_source, metaGetD, metaGet, formatLabel, mvalStr, hp]

theorem mem_addUnique (acc : List String) (s x : String) :
    x ∈ addUnique acc s ↔ x ∈ acc ∨ x = s := by
  unfold addUnique
  by_cases h : s ∈ acc
  · simp only [h, if_true]
    constructor
    · exact Or.inl
    · rintro (hx | rfl)
      · exact hx
      · exact h
  · simp [h]

theorem nodup_addUnique (acc : List String) (s : String) (h : acc.Nodup) :
    (addUnique acc s).Nodup := by
  unfold addUnique
  by_cases hs : s ∈ acc
  · simpa [hs]
  · simp only [hs, if_false]
    rw [List.nodup_append]
    exact ⟨h, List.nodup_singleton s, by simpa using hs⟩

theorem mem_foldl_addUnique (docs : List Document) (acc : List String) (x : String) :
    x ∈ docs.foldl (fun a d => addUnique a (display_source d)) acc
      ↔ x ∈ acc ∨ ∃ d ∈ docs, display_source d = x := by
  induction docs generalizing acc with
  | nil => simp
  | cons d rest ih =>
    rw [List.foldl_cons, ih, mem_addUnique]
    constructor
    · rintro ((hx | rfl) | ⟨e, he, hex⟩)
      · exact Or.inl hx
      · exact Or.inr ⟨d, by simp⟩
      · exact Or.inr ⟨e, by simp [he], hex⟩
    · rintro (hx | ⟨e, he, hex⟩)
      · exact Or.inl (Or.inl hx)
      · rcases List.mem_cons.mp he with rfl | he₂
        · exact Or.inl (Or.inr hex.symm)
        · exact Or.inr ⟨e, he₂, hex⟩

theorem nodup_foldl_addUnique (docs : List Document) (acc : List String)
    (h : acc.Nodup) :
    (docs.foldl (fun a d => addUnique a (display_source d)) acc).Nodup := by
  induction docs generalizing acc with
  | nil => simpa
  | cons d rest ih =>
    rw [List.foldl_cons]
    exact ih _ (nodup_addUnique _ _ h)

theorem uniqueSources_nodup (docs : List Document) : (uniqueSources docs).Nodup :=
  nodup_foldl_addUnique docs [] List.nodup_nil

theorem mem_uniqueSources (docs : List Document) (x : String) :
    x ∈ uniqueSources docs ↔ ∃ d ∈ docs, display_source d = x := by
  rw [uniqueSources, mem_foldl_addUnique]
  simp

theorem processFiles_documents (load : String → LoadResult) (files : List String) :
    (processFiles load files).1 = files.flatMap (fun f =>
      match load f with
      | .ok pages => pages.map (tagPage f)
      | .fail _ => []) := by
  induction files with
  | nil => rfl
  | cons f rest ih =>
    simp only [processFiles, List.flatMap_cons]
    cases hload : load f with
    | ok pages => simpa [hload] using congrArg (pages.map (tagPage f) ++ ·) ih
    | fail msg => simpa [hload] using ih

theorem processFiles_problematic (load : String → LoadResult) (files : List String) :
    (processFiles load files).2.1 = files.filter (fun f => !(load f).isOk) := by
  induction files with
  | nil => rfl
  | cons f rest ih =>
    simp only [processFiles, List.filter_cons]
    cases hload : load f with
    | ok pages => simpa [hload, LoadResult.isOk] using ih
    | fail msg => simpa [hload, LoadResult.isOk] using congrArg (f :: ·) ih

theorem tagPage_source (f : String) (d : Document) :
    metaGet (tagPage f d).metadata "source" = some (.str f) := by
  unfold tagPage
  rw [metaGet_metaSet_other _ _ _ _ (by decide)]
  exact metaGet_metaSet_same _ _ _

theorem tagPage_page (f : String) (d : Document) :
    metaGet (tagPage f d).metadata "page" = metaGet d.metadata "page" := by
  unfold tagPage
  rw [metaGet_metaSet_other _ _ _ _ (by decide),
    metaGet_metaSet_other _ _ _ _ (by decide)]

theorem tagPage_page_number (f : String) (d : Document) :
    metaGet (tagPage f d).metadata "page_number"
      = some ((metaGet (tagPage f d).metadata "page").getD (.str "Unknown")) := by
  rw [tagPage_page]
  unfold tagPage
  rw [metaGet_metaSet_same]
  rw [metaGetD, metaGet_metaSet_other _ _ _ _ (by decide)]

/-- takeWhile of the failures followed by the first success is always a
sublist of the scanned list. -/
theorem takeWhile_find_sub {α : Type} (p : α → Bool) (l : List α) :
    List.Sublist (l.takeWhile (fun a => !p a) ++ (l.find? p).toList) l := by
  induction l with
  | nil => simp
  | cons a rest ih =>
    by_cases h : p a
    · rw [List.takeWhile_cons_of_neg (by simpa using h),
        List.find?_cons_of_pos rest h]
      simp only [List.nil_append]
      exact List.Sublist.cons₂ a (List.nil_sublist rest)
    · rw [List.takeWhile_cons_of_pos (by simpa using h),
        List.find?_cons_of_neg rest h]
      exact List.Sublist.cons₂ a ih

theorem init_llm_loop_attempts (env : String → InvokeOutcome) (gm₀ : String)
    (l : List (String × String)) (acc log : List String) :
    (init_llm_loop env gm₀ l acc log).attempts
      = acc ++ ((namesOf l).takeWhile (fun n => !(env n).isOk)
          ++ ((namesOf l).find? (fun n => (env n).isOk)).toList) := by
  induction l generalizing acc log with
  | nil => simp [init_llm_loop, namesOf]
  | cons p rest ih =>
    obtain ⟨name, desc⟩ := p
    cases henv : env name with
    | ok r =>
      have hok : (fun n => (env n).isOk) name = true := by
        simp [henv, InvokeOutcome.isOk]
      rw [show namesOf ((name, desc) :: rest) = name :: namesOf rest from rfl,
        List.takeWhile_cons_of_neg (by simpa using hok),
        @List.find?_cons_of_pos String (fun n => (env n).isOk) name (namesOf rest) hok]
      simp [init_llm_loop, henv]
    | exc m =>
      have hnok : ¬ (fun n => (env n).isOk) name = true := by
        simp [henv, InvokeOutcome.isOk]
      rw [show namesOf ((name, desc) :: rest) = name :: namesOf rest from rfl,
        List.takeWhile_cons_of_pos (by simpa using hnok),
        @List.find?_cons_of_neg String (fun n => (env n).isOk) name (namesOf rest) hnok]
      simp only [init_llm_loop, henv]
      rw [ih]
      simp

theorem init_llm_loop_success (env : String → InvokeOutcome) (gm₀ : String)
    (l : List (String × String)) (acc log : List String) :
    (init_llm_loop env gm₀ l acc log).success
      = (namesOf l).any (fun n => (env n).isOk) := by
  induction l generalizing acc log with
  | nil => simp [init_llm_loop, namesOf]
  | cons p rest ih =>
    obtain ⟨name, desc⟩ := p
    cases henv : env name with
    | ok r => simp [init_llm_loop, henv, namesOf, InvokeOutcome.isOk]
    | exc m =>
      simp only [init_llm_loop, henv]
      rw [ih]
      simp [namesOf, henv, InvokeOutcome.isOk]

theorem init_llm_loop_llm_model (env : String → InvokeOutcome) (gm₀ : String)
    (l : List (String × String)) (acc log : List String) :
    (init_llm_loop env gm₀ l acc log).llm_model
      = (namesOf l).find? (fun n => (env n).isOk) := by
  induction l generalizing acc log with
  | nil => simp [init_llm_loop, namesOf]
  | cons p rest ih =>
    obtain ⟨name, desc⟩ := p
    cases henv : env name with
    | ok r =>
      have hok : (fun n => (env n).isOk) name = true := by
        simp [henv, InvokeOutcome.isOk]
      rw [show namesOf ((name, desc) :: rest) = name :: namesOf rest from rfl,
        @List.find?_cons_of_pos String (fun n => (env n).isOk) name (namesOf rest) hok]
      simp [init_llm_loop, henv]
    | exc m =>
      have hnok : ¬ (fun n => (env n).isOk) name = true := by
        simp [henv, InvokeOutcome.isOk]
      rw [show namesOf ((name, desc) :: rest) = name :: namesOf rest from rfl,
        @List.find?_cons_of_neg String (fun n => (env n).isOk) name (namesOf rest) hnok]
      simp only [init_llm_loop, henv]
      exact ih _ _

theorem init_llm_loop_genmodel (env : String → InvokeOutcome) (gm₀ : String)
    (l : List (String × String)) (acc log : List String) :
    (init_llm_loop env gm₀ l acc log).generation_model
      = ((namesOf l).find? (fun n => (env n).isOk)).getD gm₀ := by
  induction l generalizing acc log with
  | nil => simp [init_llm_loop, namesOf]
  | cons p rest ih =>
    obtain ⟨name, desc⟩ := p
    cases henv : env name with
    | ok r =>
      have hok : (fun n => (env n).isOk) name = true := by
        simp [henv, InvokeOutcome.isOk]
      rw [show namesOf ((name, desc) :: rest) = name :: namesOf rest from rfl,
        @List.find?_cons_of_pos String (fun n => (env n).isOk) name (namesOf rest) hok]
      simp [init_llm_loop, henv]
    | exc m =>
      have hnok : ¬ (fun n => (env n).isOk) name = true := by
        simp [henv, InvokeOutcome.isOk]
      rw [show namesOf ((name, desc) :: rest) = name :: namesOf rest from rfl,
        @List.find?_cons_of_neg String (fun n => (env n).isOk) name (namesOf rest) hnok]
      simp only [init_llm_loop, henv]
      exact ih _ _

theorem init_emb_loop_eq (env : String → Bool) (cfg : String)
    (l : List String) (acc : List String) :
    init_emb_loop env cfg l acc
      = { success := (l.filter (fun m => m ≠ cfg)).any env
          embedding_model := ((l.filter (fun m => m ≠ cfg)).find? env).getD cfg
          attempts := acc
            ++ ((l.filter (fun m => m ≠ cfg)).takeWhile (fun m => !env m)
              ++ ((l.filter (fun m => m ≠ cfg)).find? env).toList) } := by
  induction l generalizing acc with
  | nil => simp [init_emb_loop]
  | cons m rest ih =>
    by_cases hm : m = cfg
    · rw [List.filter_cons_of_neg (by simpa using hm)]
      simpa [init_emb_loop, hm] using ih acc
    · rw [List.filter_cons_of_pos (by simpa using hm)]
      by_cases he : env m
      · rw [List.takeWhile_cons_of_neg (by simpa using he),
          List.find?_cons_of_pos _ he]
        simp [init_emb_loop, hm, he]
      · rw [List.takeWhile_cons_of_pos (by simp [he]),
          List.find?_cons_of_neg _ (by simpa using he)]
        simp only [init_emb_loop, if_neg hm, Bool.not_eq_true] at *
        rw [if_neg (by simpa using he)]
        rw [ih]
        simp [he]

theorem guiStep_busyInv (st : AppState) (ev : GuiEvent) (h : busyInv st) :
    busyInv (guiStep st ev) := by
  unfold busyInv at *
  cases ev with
  | clickProcess d =>
    by_cases hp : st.is_processing
    · simpa [guiStep, hp] using h
    · by_cases hk : st.api_key_set
      · by_cases hd : d
        · have h0 : st.ingest_running = 0 := by simpa [hp] using h
          simp [guiStep, hp, hk, hd, h0]
        · simpa [guiStep, hp, hk, hd] using h
      · simpa [guiStep, hp, hk] using h
  | ingestDone s =>
    by_cases hr : st.ingest_running = 0
    · simpa [guiStep, hr] using h
    · have h1 : st.ingest_running = 1 := by
        by_cases hp : st.is_processing
        · simpa [hp] using h
        · simp [hp] at h
          exact absurd h hr
      by_cases hs : s <;> simp [guiStep, hr, hs, h1]
  | ingestError =>
    by_cases hr : st.ingest_running = 0
    · simpa [guiStep, hr] using h
    · have h1 : st.ingest_running = 1 := by
        by_cases hp : st.is_processing
        · simpa [hp] using h
        · simp [hp] at h
          exact absurd h hr
      simp [guiStep, hr, h1]
  | clickAsk q =>
    by_cases h₁ : st.ask_btn_enabled <;> by_cases h₂ : q <;>
      by_cases h₃ : st.has_db <;> simpa [guiStep, h₁, h₂, h₃] using h
  | queryDone =>
    by_cases hr : st.query_running = 0 <;> simpa [guiStep, hr] using h

theorem runGui_preserves_busyInv (evs : List GuiEvent) (st : AppState)
    (h : busyInv st) : busyInv (runGui st evs) := by
  induction evs generalizing st with
  | nil => simpa [runGui]
  | cons ev rest ih =>
    rw [runGui, List.foldl_cons]
    exact ih _ (guiStep_busyInv st ev h)

/-- C1: model initialization is a linear, ordered fallback over a fixed
list of model identifiers: the candidates are attempted strictly in
sequence (the attempts are the failing front of the preference list
followed by the first success), each at most once (the attempt list has
no duplicates), success is returned as soon as one model responds (the
first responding model is stored as self.llm and recorded in
config.generation_model) and failure is returned exactly when every
model in the list failed; the classification of an error message affects
only the log, never the outcome, the chosen model or the attempt order;
and the embeddings fallback behaves the same way on its list. -/
theorem c1_linear_model_fallback (env env₂ : String → InvokeOutcome)
    (gm₀ : String) :
    ((initialize_llm env gm₀).attempts
        = (namesOf model_preference).takeWhile (fun n => !(env n).isOk)
          ++ ((namesOf model_preference).find? (fun n => (env n).isOk)).toList
      ∧ (initialize_llm env gm₀).attempts.Nodup)
    ∧ (initialize_llm env gm₀).success
        = (namesOf model_preference).any (fun n => (env n).isOk)
    ∧ (initialize_llm env gm₀).llm_model
        = (namesOf model_preference).find? (fun n => (env n).isOk)
    ∧ (initialize_llm env gm₀).generation_model
        = ((namesOf model_preference).find? (fun n => (env n).isOk)).getD gm₀
    ∧ ((initialize_llm env gm₀).success = false
        ↔ ∀ n ∈ namesOf model_preference, (env n).isOk = false)
    ∧ ((∀ n, (env n).isOk = (env₂ n).isOk) →
        (initialize_llm env₂ gm₀).success = (initialize_llm env gm₀).success
        ∧ (initialize_llm env₂ gm₀).generation_model
            = (initialize_llm env gm₀).generation_model
        ∧ (initialize_llm env₂ gm₀).llm_model
            = (initialize_llm env gm₀).llm_model
        ∧ (initialize_llm env₂ gm₀).attempts
            = (initialize_llm env gm₀).attempts)
    ∧ (∀ (eenv : String → Bool) (em₀ : String),
        (initialize_embeddings eenv em₀).attempts.Nodup
        ∧ (initialize_embeddings eenv em₀).success
            = (eenv em₀
              || (alternative_models.filter (fun m => m ≠ em₀)).any eenv)
        ∧ (initialize_embeddings eenv em₀).embedding_model
            = (if eenv em₀ then em₀
              else ((alternative_models.filter (fun m => m ≠ em₀)).find?
                  eenv).getD em₀)) := by
  have hattempts := init_llm_loop_attempts env gm₀ model_preference []
    ["Testing available models..."]
  have hsuccess := init_llm_loop_success env gm₀ model_preference []
    ["Testing available models..."]
  have hllm := init_llm_loop_llm_model env gm₀ model_preference []
    ["Testing available models..."]
  have hgen := init_llm_loop_genmodel env gm₀ model_preference []
    ["Testing available models..."]
  have hattempts₂ := init_llm_loop_attempts env₂ gm₀ model_preference []
    ["Testing available models..."]
  have hsuccess₂ := init_llm_loop_success env₂ gm₀ model_preference []
    ["Testing available models..."]
  have hllm₂ := init_llm_loop_llm_model env₂ gm₀ model_preference []
    ["Testing available models..."]
  have hgen₂ := init_llm_loop_genmodel env₂ gm₀ model_preference []
    ["Testing available models..."]
  simp only [List.nil_append] at hattempts hattempts₂
  refine ⟨⟨by rw [initialize_llm, hattempts], ?_⟩, by rw [initialize_llm, hsuccess],
    by rw [initialize_llm, hllm], by rw [initialize_llm, hgen], ?_, ?_, ?_⟩
  · unfold initialize_llm
    rw [hattempts]
    exact List.Nodup.sublist
      (takeWhile_find_sub (fun n => (env n).isOk) (namesOf model_preference))
      (by decide)
  · unfold initialize_llm
    rw [hsuccess]
    simp [List.any_eq_false]
  · intro hagree
    have hfun : (fun n => (env₂ n).isOk) = (fun n => (env n).isOk) := by
      funext n
      exact (hagree n).symm
    have hfunNot : (fun n => !(env₂ n).isOk) = (fun n => !(env n).isOk) := by
      funext n
      rw [hagree n]
    unfold initialize_llm
    rw [hsuccess, hsuccess₂, hgen, hgen₂, hllm, hllm₂, hattempts, hattempts₂,
      hfun, hfunNot]
    exact ⟨rfl, rfl, rfl, rfl⟩
  · intro eenv em₀
    by_cases h0 : eenv em₀
    · refine ⟨?_, ?_, ?_⟩ <;> simp [initialize_embeddings, h0]
    · have hfilterNodup :
          (alternative_models.filter (fun m => m ≠ em₀)).Nodup :=
        List.Nodup.filter _ (by decide)
      have hsubset : ∀ x,
          x ∈ ((alternative_models.filter (fun m => m ≠ em₀)).takeWhile
                (fun m => !eenv m)
              ++ ((alternative_models.filter (fun m => m ≠ em₀)).find?
                  eenv).toList)
            → x ∈ alternative_models.filter (fun m => m ≠ em₀) := by
        intro x hx
        exact (takeWhile_find_sub eenv
          (alternative_models.filter (fun m => m ≠ em₀))).subset hx
      refine ⟨?_, ?_, ?_⟩
      · rw [initialize_embeddings, if_neg h0, init_emb_loop_eq]
        simp only [List.singleton_append]
        rw [List.nodup_cons]
        constructor
        · intro hmem
          have := hsubset em₀ hmem
          rw [List.mem_filter] at this
          simp at this
        · exact List.Nodup.sublist
            (takeWhile_find_sub eenv
              (alternative_models.filter (fun m => m ≠ em₀)))
            hfilterNodup
      · rw [initialize_embeddings, if_neg h0, init_emb_loop_eq]
        simp [h0]
      · rw [initialize_embeddings, if_neg h0, init_emb_loop_eq]
        simp [h0]

/-- C1 witness: with the premium model failing on a quota error and the
flash model responding, initialization succeeds with the flash model
after attempting exactly premium then flash; a permission-style failure
with the same availability yields the identical outcome. -/
theorem c1_linear_model_fallback_witness :
    (initialize_llm envQuota "gemini-1.5-flash").attempts
        = ["gemini-1.5-pro", "gemini-1.5-flash"]
    ∧ (initialize_llm envQuota "gemini-1.5-flash").success = true
    ∧ (initialize_llm envQuota "gemini-1.5-flash").generation_model
        = "gemini-1.5-flash"
    ∧ (initialize_llm envPerm "gemini-1.5-flash").generation_model
        = (initialize_llm envQuota "gemini-1.5-flash").generation_model
    ∧ (initialize_llm envPerm "gemini-1.5-flash").attempts
        = (initialize_llm envQuota "gemini-1.5-flash").attempts := by
  have h := c1_linear_model_fallback envQuota envPerm "gemini-1.5-flash"
  have hagree : ∀ n, (envQuota n).isOk = (envPerm n).isOk := by
    intro n
    unfold envQuota envPerm
    by_cases hn : n = "gemini-1.5-pro" <;> simp [hn, InvokeOutcome.isOk]
  obtain ⟨⟨hatt, -⟩, hsucc, -, hgen, -, hindep, -⟩ := h
  obtain ⟨-, hgen₂, -, hatt₂⟩ := hindep hagree
  refine ⟨?_, ?_, ?_, ?_, ?_⟩
  · rw [hatt]
    decide
  · rw [hsucc]
    decide
  · rw [hgen]
    decide
  · exact hgen₂
  · exact hatt₂

/-- C2 counterexample: the busy flag does not prevent a query from
overlapping an ingestion — from the ready state, clicking Process PDFs
and then Ask Question leaves one ingestion thread and one query thread
in flight at once; moreover, a successful ingestion completing while a
query is in flight re-enables the Ask button, after which a second
query can overlap the first. -/
theorem c2_overlap_counterexample :
    ((runGui initAppState [.clickProcess true, .clickAsk true]).ingest_running
        = 1
      ∧ (runGui initAppState [.clickProcess true, .clickAsk true]).query_running
        = 1
      ∧ (runGui initAppState [.clickProcess true, .clickAsk true]).is_processing
        = true)
    ∧ (runGui initAppState
        [.clickAsk true, .clickProcess true, .ingestDone true, .clickAsk true]
        ).query_running = 2 := by
  decide

/-- C2 (amended): the busy flag is set when an ingestion starts and
cleared when it completes or fails, and it prevents exactly overlapping
ingestions: in every state reachable from the ready state, the number of
in-flight ingestion threads is one while is_processing is set and zero
otherwise (so two ingestions never overlap). Queries are not guarded by
the flag: process_query neither checks nor sets it. -/
theorem c2_busy_flag_guards_ingestion_only (evs : List GuiEvent) :
    (runGui initAppState evs).ingest_running
      = (if (runGui initAppState evs).is_processing then 1 else 0) :=
  runGui_preserves_busyInv evs initAppState rfl

/-- C3 counterexample: a query against an initialized but empty store
(the vector_db handle is set while the collection holds zero chunks) is
not rejected — the similarity search, a network call, is issued. -/
theorem c3_empty_store_not_rejected :
    (get_database_stats { vector_db := some (), disk := [] }).2 = 0
    ∧ (gui_process_query 7 envQueryDemo "q"
        { vector_db := some (), disk := [] }).2 ≠ []
    ∧ (gui_process_query 7 envQueryDemo "q"
        { vector_db := some (), disk := [] }).2.head?
      = some (.search "q" 7) := by
  refine ⟨rfl, by decide, by decide⟩

/-- C3 (amended): a query is rejected before any network call exactly
when the vector_db handle is unset (or the query text is blank): with
vector_db = None the user sees the not-ready error box and no network
call is issued. Emptiness of the collection is not checked. -/
theorem c3_uninitialized_store_rejected (max_retrieved_docs : Nat)
    (env : QueryEnv) (query_raw : String) (st : DocProcState)
    (hdb : st.vector_db = none) :
    (gui_process_query max_retrieved_docs env query_raw st).2 = []
    ∧ (strStrip query_raw ≠ "" →
        (gui_process_query max_retrieved_docs env query_raw st).1
          = .errorDbNotReady) := by
  unfold gui_process_query
  rw [hdb]
  by_cases hq : strStrip query_raw = ""
  · simp [hq]
  · simp [hq]

/-- C3 witness at a concrete input. -/
theorem c3_uninitialized_store_rejected_witness :
    ({ vector_db := none, disk := [docA] } : DocProcState).vector_db = none
    ∧ (gui_process_query 7 envQueryDemo "why"
        { vector_db := none, disk := [docA] }).2 = []
    ∧ (gui_process_query 7 envQueryDemo "why"
        { vector_db := none, disk := [docA] }).1 = .errorDbNotReady := by
  have h := c3_uninitialized_store_rejected 7 envQueryDemo "why"
    { vector_db := none, disk := [docA] } rfl
  exact ⟨rfl, h.1, h.2 (by decide)⟩

/-- C4: a failure on one PDF file skips exactly that file: the returned
document list is the concatenation, in directory order, of the tagged
chunks of the files that loaded successfully; the problematic list
collects exactly the files whose load raised, in order; and when any
file failed, the last log line is the aggregate warning naming them. -/
theorem c4_per_file_failure_skipped (pdf_directory : String)
    (entries : List String) (load : String → LoadResult) (out : PdfLoadOut)
    (h : load_and_process_pdfs pdf_directory true entries load = .ok out) :
    out.documents = (selectPdfFiles entries).flatMap (fun f =>
        match load f with
        | .ok pages => pages.map (tagPage f)
        | .fail _ => [])
    ∧ out.problematic_files
        = (selectPdfFiles entries).filter (fun f => !(load f).isOk)
    ∧ (out.problematic_files ≠ [] →
        out.log.getLast? = some (aggregateWarning out.problematic_files)) := by
  unfold load_and_process_pdfs at h
  simp only [Bool.not_true, Bool.false_eq_true, if_false] at h
  by_cases hempty : (selectPdfFiles entries).isEmpty
  · rw [if_pos hempty] at h
    exact absurd h (by simp)
  · rw [if_neg hempty] at h
    rcases hpf : processFiles load (selectPdfFiles entries) with ⟨docs, probs, plog⟩
    rw [hpf] at h
    have hdocs : docs = (processFiles load (selectPdfFiles entries)).1 := by
      rw [hpf]
    have hprobs : probs = (processFiles load (selectPdfFiles entries)).2.1 := by
      rw [hpf]
    have ho : out
        = { documents := docs
            problematic_files := probs
            log := ("Found " ++ toString (selectPdfFiles entries).length
                ++ " PDF files to process") :: plog
              ++ ["Total chunks created: " ++ toString docs.length]
              ++ (if probs.isEmpty then [] else [aggregateWarning probs]) } :=
      (Except.ok.inj h).symm
    refine ⟨?_, ?_, ?_⟩
    · rw [ho]
      rw [show (({ documents := docs, problematic_files := probs, log := _ }
          : PdfLoadOut)).documents = docs from rfl]
      rw [hdocs, processFiles_documents]
    · rw [ho]
      rw [show (({ documents := docs, problematic_files := probs, log := _ }
          : PdfLoadOut)).problematic_files = probs from rfl]
      rw [hprobs, processFiles_problematic]
    · rw [ho]
      intro hne
      simp only at hne ⊢
      rw [if_neg (by simpa [List.isEmpty_iff] using hne)]
      have hre : ("Found " ++ toString (selectPdfFiles entries).length
            ++ " PDF files to process") :: plog
          ++ ["Total chunks created: " ++ toString docs.length]
          ++ [aggregateWarning probs]
        = (("Found " ++ toString (selectPdfFiles entries).length
            ++ " PDF files to process")
              :: (plog ++ ["Total chunks created: " ++ toString docs.length]))
          ++ [aggregateWarning probs] := by
        simp
      rw [hre, getLast?_append_singleton]

/-- Helper: the documents field of a successful load_and_process_pdfs
run is the concatenation of the tagged chunks of the loadable files. -/
theorem load_ok_documents (pdf_directory : String) (dirExists : Bool)
    (entries : List String) (load : String → LoadResult) (out : PdfLoadOut)
    (h : load_and_process_pdfs pdf_directory dirExists entries load = .ok out) :
    out.documents = (selectPdfFiles entries).flatMap (fun f =>
      match load f with
      | .ok pages => pages.map (tagPage f)
      | .fail _ => []) := by
  cases dirExists
  · exact absurd h (by simp [load_and_process_pdfs])
  · unfold load_and_process_pdfs at h
    simp only [Bool.not_true, Bool.false_eq_true, if_false] at h
    by_cases hempty : (selectPdfFiles entries).isEmpty
    · rw [if_pos hempty] at h
      exact absurd h (by simp)
    · rw [if_neg hempty] at h
      rcases hpf : processFiles load (selectPdfFiles entries)
        with ⟨docs, probs, plog⟩
      rw [hpf] at h
      have ho := (Except.ok.inj h).symm
      rw [ho]
      have hdocs : docs = (processFiles load (selectPdfFiles entries)).1 := by
        rw [hpf]
      rw [show (({ documents := docs, problematic_files := probs, log := _ }
          : PdfLoadOut)).documents = docs from rfl]
      rw [hdocs, processFiles_documents]

/-- C5: a missing directory, or a directory with no lowercase .pdf
entries, makes load_and_process_pdfs raise before producing any chunk;
the ingestion thread then reports the exception text through
on_processing_error (which shows it in a message box) and the document
processor state — in particular the vector store — is left untouched,
so no silent empty index is created. -/
theorem c5_bad_directory_reported (pdf_directory : String) (dirExists : Bool)
    (entries : List String) (load : String → LoadResult) (embedOk : Bool)
    (st : DocProcState)
    (h : dirExists = false ∨ selectPdfFiles entries = []) :
    load_and_process_pdfs pdf_directory dirExists entries load
        = .error (if dirExists then noPdfFilesMsg pdf_directory
            else dirNotFoundMsg pdf_directory)
    ∧ process_thread pdf_directory dirExists entries load embedOk st
        = (.errored (if dirExists then noPdfFilesMsg pdf_directory
            else dirNotFoundMsg pdf_directory), st) := by
  have hload : load_and_process_pdfs pdf_directory dirExists entries load
      = .error (if dirExists then noPdfFilesMsg pdf_directory
          else dirNotFoundMsg pdf_directory) := by
    rcases h with rfl | hsel
    · simp [load_and_process_pdfs]
    · cases dirExists
      · simp [load_and_process_pdfs]
      · simp [load_and_process_pdfs, hsel]
  refine ⟨hload, ?_⟩
  unfold process_thread
  rw [hload]

/-- C5 witness: a directory whose only entries are a text file and an
uppercase .PDF file is rejected with the no-PDF-files error and the
state is unchanged. -/
theorem c5_bad_directory_reported_witness :
    selectPdfFiles ["notes.txt", "A.PDF"] = []
    ∧ process_thread "pdfs" true ["notes.txt", "A.PDF"] loadDemo true
        { vector_db := none, disk := [] }
      = (.errored (noPdfFilesMsg "pdfs"),
          { vector_db := none, disk := [] }) := by
  refine ⟨by decide, ?_⟩
  have h := c5_bad_directory_reported "pdfs" true ["notes.txt", "A.PDF"]
    loadDemo true { vector_db := none, disk := [] } (Or.inr (by decide))
  simpa using h.2

/-- C6: every chunk returned by load_and_process_pdfs carries its
provenance: its source metadata is the filename of one of the selected
PDF files it was extracted from, and its page_number metadata is set —
to the value of its page metadata when one is present, and to the string
Unknown otherwise. -/
theorem c6_chunk_provenance (pdf_directory : String) (dirExists : Bool)
    (entries : List String) (load : String → LoadResult) (out : PdfLoadOut)
    (d : Document)
    (h : load_and_process_pdfs pdf_directory dirExists entries load = .ok out)
    (hd : d ∈ out.documents) :
    (∃ f ∈ selectPdfFiles entries,
        metaGet d.metadata "source" = some (.str f))
    ∧ metaGet d.metadata "page_number"
        = some ((metaGet d.metadata "page").getD (.str "Unknown")) := by
  rw [load_ok_documents pdf_directory dirExists entries load out h] at hd
  rw [List.mem_flatMap] at hd
  obtain ⟨f, hf, hdf⟩ := hd
  cases hl : load f with
  | fail m =>
    rw [hl] at hdf
    simp at hdf
  | ok pages =>
    rw [hl] at hdf
    simp only [List.mem_map] at hdf
    obtain ⟨d₀, hd₀, rfl⟩ := hdf
    exact ⟨⟨f, hf, tagPage_source f d₀⟩, tagPage_page_number f d₀⟩

/-- C6 witness at a concrete directory. -/
theorem c6_chunk_provenance_witness :
    load_and_process_pdfs "pdfs" true ["a.pdf", "x.txt"] loadDemo = .ok outDemo
    ∧ outDemoDoc ∈ outDemo.documents
    ∧ metaGet outDemoDoc.metadata "source" = some (.str "a.pdf")
    ∧ metaGet outDemoDoc.metadata "page_number"
        = some ((metaGet outDemoDoc.metadata "page").getD (.str "Unknown")) := by
  refine ⟨rfl, by decide, by decide, ?_⟩
  exact (c6_chunk_provenance "pdfs" true ["a.pdf", "x.txt"] loadDemo outDemo
    outDemoDoc rfl (by decide)).2

/-- C7: a successful query returns the generated answer text, the
retrieved chunks exactly as the similarity search returned them (so at
most max_retrieved_docs of them whenever the search honors its k
argument), and the deduplicated source labels of those chunks: the
label list has no duplicates and holds exactly the labels of the
retrieved chunks, each distinct label once however many chunks share
it. -/
theorem c7_query_result_contents (max_retrieved_docs : Nat) (env : QueryEnv)
    (query answer : String) (docs : List Document)
    (hsearch : env.similarity_search query max_retrieved_docs = .ok docs)
    (hlen : docs.length ≤ max_retrieved_docs)
    (hllm : env.llm_invoke (create_prompt query (contextForLLM docs)
        (sourceListBlock docs)) = .ok answer) :
    (QueryProcessor.process_query max_retrieved_docs env query).1
        = .ok answer (uniqueSources docs) docs (contextForLLM docs) docs.length
    ∧ (uniqueSources docs).Nodup
    ∧ (∀ s, s ∈ uniqueSources docs ↔ ∃ d ∈ docs, display_source d = s)
    ∧ docs.length ≤ max_retrieved_docs := by
  refine ⟨?_, uniqueSources_nodup docs, mem_uniqueSources docs, hlen⟩
  simp [QueryProcessor.process_query, hsearch, hllm]

/-- C7 witness: three retrieved chunks, two of which share a source
label, produce exactly two deduplicated labels next to the answer. -/
theorem c7_query_result_contents_witness :
    envQueryDemo.similarity_search "what" 7 = .ok [docA, docA2, docB]
    ∧ ([docA, docA2, docB] : List Document).length ≤ 7
    ∧ (QueryProcessor.process_query 7 envQueryDemo "what").1
        = .ok "ANSWER" ["a.pdf (Page: 2)", "b.pdf"] [docA, docA2, docB]
            (contextForLLM [docA, docA2, docB]) 3
    ∧ uniqueSources [docA, docA2, docB] = ["a.pdf (Page: 2)", "b.pdf"] := by
  have h := c7_query_result_contents 7 envQueryDemo "what" "ANSWER"
    [docA, docA2, docB] rfl (by decide) rfl
  refine ⟨rfl, by decide, ?_, by decide⟩
  rw [h.1]
  decide

/-- C8: re-running create_vector_database over a list of chunks adds
them to the persisted collection: the stored chunk count never
decreases, and it strictly increases whenever the external embedding
call succeeds and the document list is non-empty — in particular when
the chunks of an already-ingested file are ingested again. -/
theorem c8_chunk_count_monotone (embedOk : Bool) (st : DocProcState)
    (documents : List Document) :
    (get_database_stats st).2
        ≤ (get_database_stats
            (create_vector_database embedOk st documents).2).2
    ∧ (embedOk = true → documents ≠ [] →
        (get_database_stats st).2
          < (get_database_stats
              (create_vector_database embedOk st documents).2).2) := by
  cases embedOk with
  | false => simp [create_vector_database]
  | true =>
    have hnew : (get_database_stats
          (create_vector_database true st documents).2).2
        = st.disk.length + documents.length := by
      simp [create_vector_database, get_database_stats]
    have hold : (get_database_stats st).2 ≤ st.disk.length := by
      cases hdb : st.vector_db <;> simp [get_database_stats, hdb]
    constructor
    · rw [hnew]
      omega
    · intro _ hne
      have hpos : 0 < documents.length := List.length_pos.mpr hne
      rw [hnew]
      omega

/-- C8 witness: ingesting the chunk of a.pdf again grows the stored
count from one to two. -/
theorem c8_chunk_count_monotone_witness :
    (get_database_stats { vector_db := some (), disk := [docA] }).2 = 1
    ∧ (get_database_stats (create_vector_database true
        { vector_db := some (), disk := [docA] } [docA]).2).2 = 2
    ∧ (get_database_stats { vector_db := some (), disk := [docA] }).2
        < (get_database_stats (create_vector_database true
            { vector_db := some (), disk := [docA] } [docA]).2).2 := by
  refine ⟨rfl, rfl, ?_⟩
  exact (c8_chunk_count_monotone true { vector_db := some (), disk := [docA] }
    [docA]).2 rfl (by decide)

/-- C9 counterexample: the side conditions of the claim hold for the
page text "(Page: 5" — it is not Unknown, does not contain " (Page: "
and does not end with ")" — yet parsing the label formatted from it does
not recover the original filename and page: the rsplit picks a later
occurrence of the separator that straddles the inserted one. -/
theorem c9_roundtrip_counterexample :
    ("(Page: 5" ≠ "Unknown"
      ∧ hasSubList pageSep "(Page: 5".data = false
      ∧ "(Page: 5".data.getLast? ≠ some ')')
    ∧ parseSourceLabel (formatLabel "a.pdf" "(Page: 5")
        ≠ ("a.pdf", "(Page: 5")
    ∧ parseSourceLabel (formatLabel "a.pdf" "(Page: 5")
        = ("a.pdf (Page:", "5") := by
  decide

/-- C9 (amended): the label round-trip holds for every source filename
and every page value other than Unknown whose text does not contain
" (Page: ", does not start with "(Page: " and does not end with ")":
the label built by process_query for such a chunk is
filename ++ " (Page: " ++ page ++ ")", and display_sources, splitting at
the last occurrence of " (Page: " and stripping trailing ")", recovers
exactly the original filename and page. -/
theorem c9_label_roundtrip (content f p : String)
    (hp0 : p ≠ "Unknown")
    (hp1 : hasSubList pageSep p.data = false)
    (hp2 : pageSepTail.isPrefixOf p.data = false)
    (hp3 : p.data.getLast? ≠ some ')') :
    display_source
        (Document.mk content [("source", .str f), ("page_number", .str p)])
      = formatLabel f p
    ∧ parseSourceLabel (formatLabel f p) = (f, p) :=
  ⟨display_source_formatLabel content f p hp0,
    parse_formatLabel f p hp1 hp2 hp3⟩

/-- C9 witness at a concrete filename and page. -/
theorem c9_label_roundtrip_witness :
    ("3" ≠ "Unknown"
      ∧ hasSubList pageSep "3".data = false
      ∧ pageSepTail.isPrefixOf "3".data = false
      ∧ "3".data.getLast? ≠ some ')')
    ∧ display_source
        (Document.mk "body"
          [("source", .str "paper.pdf"), ("page_number", .str "3")])
      = "paper.pdf (Page: 3)"
    ∧ parseSourceLabel (formatLabel "paper.pdf" "3") = ("paper.pdf", "3") := by
  have h := c9_label_roundtrip "body" "paper.pdf" "3" (by decide) (by decide)
    (by decide) (by decide)
  refine ⟨⟨by decide, by decide, by decide, by decide⟩, ?_, h.2⟩
  rw [h.1]
  decide

/-- C10: the ingestion file filter is a case-sensitive suffix test: an
entry is selected exactly when its name ends with the lowercase ".pdf";
entries ending in ".PDF" or any other casing are ignored and do not
count toward the no-PDF-files check, so a directory holding only such
entries is reported as containing no PDF files. -/
theorem c10_case_sensitive_suffix :
    (∀ (entries : List String) (f : String),
        f ∈ selectPdfFiles entries
          ↔ f ∈ entries ∧ strEndsWith ".pdf" f = true)
    ∧ strEndsWith ".pdf" "paper.pdf" = true
    ∧ strEndsWith ".pdf" "A.PDF" = false
    ∧ strEndsWith ".pdf" "b.Pdf" = false
    ∧ (∀ (pdf_directory : String) (load : String → LoadResult),
        load_and_process_pdfs pdf_directory true ["A.PDF", "b.Pdf"] load
          = .error (noPdfFilesMsg pdf_directory)) := by
  refine ⟨?_, by decide, by decide, by decide, ?_⟩
  · intro entries f
    rw [selectPdfFiles, List.mem_filter]
  · intro pdf_directory load
    have hsel : selectPdfFiles ["A.PDF", "b.Pdf"] = [] := by decide
    simp [load_and_process_pdfs, hsel]

/-- C4 witness: among a.pdf, a failing b.pdf and an ignored text entry,
only b.pdf is skipped, the chunks of a.pdf are all returned, and the
aggregate warning naming b.pdf closes the log. -/
theorem c4_per_file_failure_skipped_witness :
    load_and_process_pdfs "pdfs" true ["a.pdf", "b.pdf", "x.txt"] loadDemo
        = .ok outDemo2
    ∧ outDemo2.documents = [outDemoDoc]
    ∧ outDemo2.problematic_files = ["b.pdf"]
    ∧ outDemo2.log.getLast? = some (aggregateWarning ["b.pdf"]) := by
  refine ⟨rfl, rfl, rfl, ?_⟩
  have h := c4_per_file_failure_skipped "pdfs" ["a.pdf", "b.pdf", "x.txt"]
    loadDemo outDemo2 rfl
  exact h.2.2 (by decide)

end Relevantr
